import Mathlib

/-!
Verification of the duna simulation core: a shallow embedding of the
program-state / diff model, trap and syscall dispatch, termination handling,
the MIPS instruction format builders, and the 32-bit RISC-V program loader,
together with theorems settling the specified properties.

Machine integers are modelled as `Nat`, with explicit `% 2 ^ 32` where the
source performs a wrapping or truncating conversion.  Fallible code
(`panic!` / `unimplemented!` in the source) is modelled with `Option`,
`none` standing for a host-level abort.
-/

namespace Duna

/-- Modulus of 32-bit machine words. -/
def WORD_MOD : Nat := 2 ^ 32

/-- Architectural register identifiers: both supported families (RISC-V and
MIPS) have 32 general-purpose registers, register 0 being hardwired to zero. -/
abbrev Reg := Fin 32

/-- Modelled from the spec: the register file (registers.rs is absent from the
sources).  A mapping from architectural register identifier to a data-width
sized value; writes to the hardwired zero register are silently absorbed at
this layer. -/
def RegFile := Reg → Nat

/-- A fresh register file holds zero in every register. -/
def RegFile.new : RegFile := fun _ => 0

/-- Reads a register's current value. -/
def RegFile.read (rf : RegFile) (r : Reg) : Nat := rf r

/-- Writes a register; a write to the hardwired zero register is silently
absorbed. -/
def RegFile.set (rf : RegFile) (r : Reg) (v : Nat) : RegFile :=
  if r = (0 : Reg) then rf else Function.update rf r v

/-- Modelled from the spec: user memory (memory.rs is absent from the
sources).  Word-aligned get/set of a 32-bit value at a word address and
byte-granular get/set at a byte address, little-endian within a word, with no
partial-word tearing. -/
def Memory := Nat → Nat

/-- A fresh memory holds zero everywhere. -/
def Memory.new : Memory := fun _ => 0

/-- Word-aligned read at a word address. -/
def Memory.get_word (m : Memory) (a : Nat) : Nat := m a

/-- Word-aligned write at a word address. -/
def Memory.set_word (m : Memory) (a v : Nat) : Memory := Function.update m a v

/-- Byte-granular read at a byte address (little-endian within the word). -/
def Memory.get_byte (m : Memory) (ba : Nat) : Nat :=
  m (ba / 4) / 2 ^ (8 * (ba % 4)) % 256

/-- Byte-granular write at a byte address: replaces one byte of the containing
word, leaving the other three bytes intact. -/
def Memory.set_byte (m : Memory) (ba b : Nat) : Memory :=
  let w := m (ba / 4)
  let sh := 8 * (ba % 4)
  Function.update m (ba / 4) (w - w / 2 ^ sh % 256 * 2 ^ sh + b % 256 * 2 ^ sh)

/-- Advancing a byte address by one instruction width (4 bytes), with 32-bit
wraparound (`ByteAddress::plus_4`). -/
def plus4 (a : Nat) : Nat := (a + 4) % WORD_MOD

/-- A change to a register value (`RegDataChange`). -/
structure RegDataChange where
  old_value : Nat
  new_value : Nat
deriving DecidableEq

/-- A change to a memory word (`WordChange`). -/
structure WordChange where
  old_value : Nat
  new_value : Nat
deriving DecidableEq

/-- A change to the program counter (`PcDiff`). -/
structure PcDiff where
  old_pc : Nat
  new_pc : Nat
deriving DecidableEq

/-- A change to a register (`RegDiff`). -/
structure RegDiff where
  reg : Reg
  val : RegDataChange
deriving DecidableEq

/-- A change to memory (`MemDiff`). -/
structure MemDiff where
  addr : Nat
  val : WordChange
deriving DecidableEq

/-- A diff applied only to the user state of a program (`UserDiff`): a program
counter change, an optional register change, and an optional memory-word
change. -/
structure UserDiff where
  pc : PcDiff
  reg : Option RegDiff
  mem : Option MemDiff
deriving DecidableEq

/-- Program state visible to the user (`UserProgState`): program counter,
register file, memory. -/
structure UserProgState where
  pc : Nat
  regfile : RegFile
  memory : Memory

/-- A fresh user state: pc zero, zeroed registers, zeroed memory
(`UserProgState::new`). -/
def UserProgState.new : UserProgState :=
  { pc := 0, regfile := RegFile.new, memory := Memory.new }

/-- Applies a user diff: install the new pc, the new register value (if any),
and the new memory word (if any) (`UserProgState::apply_diff`). -/
def UserProgState.apply_diff (s : UserProgState) (d : UserDiff) : UserProgState :=
  { pc := d.pc.new_pc
    regfile :=
      match d.reg with
      | some rd => s.regfile.set rd.reg rd.val.new_value
      | none => s.regfile
    memory :=
      match d.mem with
      | some md => s.memory.set_word md.addr md.val.new_value
      | none => s.memory }

/-- Reverts a user diff: restore the old pc, the old register value (if any),
and the old memory word (if any) (`UserProgState::revert_diff`). -/
def UserProgState.revert_diff (s : UserProgState) (d : UserDiff) : UserProgState :=
  { pc := d.pc.old_pc
    regfile :=
      match d.reg with
      | some rd => s.regfile.set rd.reg rd.val.old_value
      | none => s.regfile
    memory :=
      match d.mem with
      | some md => s.memory.set_word md.addr md.val.old_value
      | none => s.memory }

/-- The `UserDiff::new` constructor: records the current pc as the old pc. -/
def UserDiff.mk_new (state : UserProgState) (new_pc : Nat)
    (reg_change : Option RegDiff) (mem_change : Option MemDiff) : UserDiff :=
  { pc := { old_pc := state.pc, new_pc }
    reg := reg_change
    mem := mem_change }

/-- The `UserDiff::new_pc_p4` constructor: advance pc by one instruction
width. -/
def UserDiff.new_pc_p4 (state : UserProgState)
    (reg_change : Option RegDiff) (mem_change : Option MemDiff) : UserDiff :=
  UserDiff.mk_new state (plus4 state.pc) reg_change mem_change

/-- The `UserDiff::noop` constructor. -/
def UserDiff.noop (state : UserProgState) : UserDiff :=
  UserDiff.new_pc_p4 state none none

/-- The `UserDiff::pc_update_op` constructor. -/
def UserDiff.pc_update_op (state : UserProgState) (new_pc : Nat) : UserDiff :=
  UserDiff.mk_new state new_pc none none

/-- The `UserDiff::reg_write_op` constructor: records the register's current
value as the old value. -/
def UserDiff.reg_write_op (state : UserProgState) (new_pc : Nat) (reg : Reg)
    (val : Nat) : UserDiff :=
  UserDiff.mk_new state new_pc
    (some { reg, val := { old_value := state.regfile.read reg, new_value := val } })
    none

/-- The `UserDiff::reg_write_pc_p4` constructor. -/
def UserDiff.reg_write_pc_p4 (state : UserProgState) (reg : Reg) (val : Nat) :
    UserDiff :=
  UserDiff.reg_write_op state (plus4 state.pc) reg val

/-- The `UserDiff::mem_write_op` constructor: records the current memory word
as the old value. -/
def UserDiff.mem_write_op (state : UserProgState) (addr : Nat) (val : Nat) :
    UserDiff :=
  UserDiff.new_pc_p4 state none
    (some { addr, val := { old_value := state.memory.get_word addr, new_value := val } })

/-- A diff is consistent with a state when its recorded old values were read
from that state: old pc equals the state's pc, an old register value equals
the register's current value, an old memory word equals the word currently in
memory.  Every `UserDiff` constructor establishes this for the state it is
built from. -/
def DiffFromState (d : UserDiff) (s : UserProgState) : Prop :=
  d.pc.old_pc = s.pc ∧
  (∀ rd, d.reg = some rd → rd.val.old_value = s.regfile.read rd.reg) ∧
  (∀ md, d.mem = some md → md.val.old_value = s.memory.get_word md.addr)

/-- The closed set of recognized syscalls (`Syscall`). -/
inductive Syscall where
  | Read
  | Write
  | Open
  | Close
deriving DecidableEq

/-- The kind of trap raised from user mode (`TrapKind`): `Ecall` and
`PageFault` from the state model, `IntOverflow` raised by the MIPS R-type
builder on arithmetic overflow. -/
inductive TrapKind where
  | Ecall
  | PageFault
  | IntOverflow
deriving DecidableEq

/-- A change to the privileged state (`PrivStateChange`): termination, no
change, or a file write described by descriptor, user buffer pointer, and
length. -/
inductive PrivStateChange where
  | Exit
  | NoChange
  | FileWrite (fd : Nat) (buf : Nat) (len : Nat)
deriving DecidableEq

/-- The result of evaluating one instruction (`InstResult`): either a trap or
a user-state diff. -/
inductive InstResult where
  | Trap (kind : TrapKind)
  | UserStateChange (diff : UserDiff)

/-- Program state visible only to privileged entities (`PrivProgState`): the
captured stdout byte stream. -/
structure PrivProgState where
  stdout : List Nat
deriving DecidableEq

/-- A fresh privileged state with an empty stdout capture
(`PrivProgState::new`). -/
def PrivProgState.new : PrivProgState := { stdout := [] }

/-- The whole program state (`ProgramState`): one privileged state and one
user state. -/
structure ProgramState where
  priv_state : PrivProgState
  user_state : UserProgState

/-- A fresh program state (`ProgramState::new`). -/
def ProgramState.new : ProgramState :=
  { priv_state := PrivProgState.new, user_state := UserProgState.new }

/-- The architecture's syscall calling convention (the `SyscallConvention`
trait): number decoding, the syscall-number register, argument registers and
return registers. -/
structure SyscallConvention where
  number_to_syscall : Int → Option Syscall
  syscall_number_reg : Reg
  syscall_arg_regs : List Reg
  syscall_return_regs : List Reg

/-- Reinterpreting a 32-bit unsigned register value as a signed integer (the
`u32` to `i32` conversion performed by `.into()`). -/
def toSigned (v : Nat) : Int :=
  if v % WORD_MOD < 2 ^ 31 then ((v % WORD_MOD : Nat) : Int)
  else ((v % WORD_MOD : Nat) : Int) - (WORD_MOD : Int)

/-- Syscall dispatch (`ProgramState::dispatch_syscall`): read the three
argument registers and the syscall-number register per the convention; a
`Write` syscall yields a file-write privileged diff; any other decoded
syscall, or an undecodable number, aborts the simulator (`syscall_unknown`
panics, modelled as `none`).  Reading a missing argument register is an
out-of-bounds index, also an abort. -/
def ProgramState.dispatch_syscall (C : SyscallConvention) (s : ProgramState) :
    Option PrivStateChange :=
  match C.syscall_arg_regs with
  | r0 :: r1 :: r2 :: _ =>
    let a0 := s.user_state.regfile.read r0
    let a1 := s.user_state.regfile.read r1
    let a2 := s.user_state.regfile.read r2
    match C.number_to_syscall
        (toSigned (s.user_state.regfile.read C.syscall_number_reg)) with
    | some Syscall.Write => some (PrivStateChange.FileWrite a0 a1 a2)
    | some _ => none
    | none => none
  | _ => none

/-- Trap routing (`ProgramState::handle_trap`): only an `Ecall` trap is
dispatched; every other kind hits `unimplemented!`, an abort of the simulator
process, modelled as `none`. -/
def ProgramState.handle_trap (C : SyscallConvention) (s : ProgramState)
    (trap_kind : TrapKind) : Option PrivStateChange :=
  match trap_kind with
  | TrapKind.Ecall => s.dispatch_syscall C
  | _ => none

/-- Applying a privileged diff (`PrivProgState::apply_diff`): a file write
reads `len` bytes from user memory starting at `buf`, appends them to the
captured stdout stream, and derives the user diff that writes `len` into the
convention's first return register and advances pc by 4.  `Exit` hits
`unimplemented!`, and an empty return-register list is an out-of-bounds
index; both abort, modelled as `none`. -/
def PrivProgState.apply_diff (C : SyscallConvention) (p : PrivProgState)
    (user_state : UserProgState) (diff : PrivStateChange) :
    Option (PrivProgState × UserDiff) :=
  match diff with
  | PrivStateChange.NoChange => some (p, UserDiff.noop user_state)
  | PrivStateChange.FileWrite _ buf len =>
    let bytes := (List.range len).map
      (fun i => user_state.memory.get_byte ((buf + i) % WORD_MOD))
    match C.syscall_return_regs with
    | ret_reg :: _ =>
      some ({ stdout := p.stdout ++ bytes },
        UserDiff.reg_write_pc_p4 user_state ret_reg len)
    | [] => none
  | PrivStateChange.Exit => none

/-- Reverting a privileged diff, old generation
(`PrivProgState::revert_diff`): `NoChange` and `FileWrite` are silent no-ops;
`Exit` hits `unimplemented!`, an abort modelled as `none`. -/
def PrivProgState.revert_diff (p : PrivProgState)
    (_user_state : UserProgState) (diff : PrivStateChange) :
    Option PrivProgState :=
  match diff with
  | PrivStateChange.NoChange => some p
  | PrivStateChange.FileWrite _ _ _ => some p
  | PrivStateChange.Exit => none

/-- Applying an instruction result (`ProgramState::apply_diff`): a trap is
routed to the privileged layer first — the privileged diff is resolved and
applied against the pre-application user state — and the derived user diff is
applied to the user state afterwards; a plain user diff is applied directly. -/
def ProgramState.apply_diff (C : SyscallConvention) (s : ProgramState)
    (diff : InstResult) : Option ProgramState :=
  match diff with
  | InstResult.Trap trap_kind =>
    (s.handle_trap C trap_kind).bind fun priv_diff =>
      (s.priv_state.apply_diff C s.user_state priv_diff).map fun pr =>
        { priv_state := pr.1, user_state := s.user_state.apply_diff pr.2 }
  | InstResult.UserStateChange user_diff =>
    some { s with user_state := s.user_state.apply_diff user_diff }

/-- A diff as applied to a whole program (`ProgramDiff`). -/
inductive ProgramDiff where
  | PrivOnly (diff : PrivStateChange)
  | UserOnly (diff : UserDiff)

/-- Reverting a program diff (`ProgramState::revert_diff`). -/
def ProgramState.revert_diff (s : ProgramState) (diff : ProgramDiff) :
    Option ProgramState :=
  match diff with
  | ProgramDiff.UserOnly user_only =>
    some { s with user_state := s.user_state.revert_diff user_only }
  | ProgramDiff.PrivOnly priv_only =>
    (s.priv_state.revert_diff s.user_state priv_only).map fun p =>
      { s with priv_state := p }

/-- Modelled from the spec: a bit string of a known width (datatypes.rs is
absent from the sources).  `to_machine_code` is a pure bit-concatenation of
such fields. -/
structure BitStr32 where
  value : Nat
  width : Nat
deriving DecidableEq

/-- Concatenation of two bit strings: the left operand occupies the high
bits. -/
def BitStr32.concat (a b : BitStr32) : BitStr32 :=
  { value := a.value * 2 ^ b.width + b.value % 2 ^ b.width
    width := a.width + b.width }

/-- Truncation of a bit string to a 32-bit machine word (`as_u32`). -/
def BitStr32.as_u32 (a : BitStr32) : Nat := a.value % WORD_MOD

/-- A MIPS register rendered as its 5-bit field (`to_bit_str`). -/
def regBitStr (r : Reg) : BitStr32 := { value := r.val, width := 5 }

/-- The fixed fields of an R-format instruction (`RInstFields`). -/
structure RInstFields where
  opcode : BitStr32
  shamt : BitStr32
  funct : BitStr32
deriving DecidableEq

/-- The structural encoding fields of a MIPS instruction, tagged by format
(`InstFields`). -/
inductive InstFields where
  | R (rd : Reg) (rs : Reg) (rt : Reg) (fields : RInstFields)
  | I (opcode : BitStr32) (rs : Reg) (rt : Reg) (imm : BitStr32)
  | J (opcode : BitStr32) (addr : BitStr32)
deriving DecidableEq

/-- The stored data of a MIPS instruction (`InstData`): a name and the
encoding fields. -/
structure InstData where
  name : String
  fields : InstFields
deriving DecidableEq

/-- The type of an instruction's stored evaluation procedure
(`InstApplyFn`). -/
def InstApplyFn := ProgramState → InstResult

/-- A MIPS instruction (`MipsInst`): an opaque evaluation procedure paired
with its structural encoding data. -/
structure MipsInst where
  eval : InstApplyFn
  data : InstData

/-- Emission of the machine word (`MipsInst::to_machine_code`): a pure bit
concatenation of the encoding fields, consulting only `data`, never `eval`. -/
def MipsInst.to_machine_code (i : MipsInst) : Nat :=
  (match i.data.fields with
   | InstFields.R rd rs rt fields =>
     ((((fields.opcode.concat (regBitStr rs)).concat (regBitStr rt)).concat
       (regBitStr rd)).concat fields.shamt).concat fields.funct
   | InstFields.I opcode rs rt imm =>
     ((opcode.concat (regBitStr rs)).concat (regBitStr rt)).concat imm
   | InstFields.J opcode addr => opcode.concat addr).as_u32

/-- Instruction equality (the `PartialEq` impl): two instructions compare
equal exactly when their emitted machine words are equal. -/
def MipsInst.inst_eq (i j : MipsInst) : Bool :=
  i.to_machine_code == j.to_machine_code

/-- An architectural exception raised during evaluation (`Exception`). -/
inductive Exception where
  | Overflow
deriving DecidableEq

/-- The R-type builder (`RType::new`), parametrized by the per-opcode `eval`
function on the two source register values: it pairs the encoding fields with
an evaluation procedure that reads `rs` and `rt`, and either produces the
register-write-and-advance-pc diff for `rd`, or converts a raised `Overflow`
exception into an `IntOverflow` trap, leaving the destination register
untouched. -/
def RType.new (ev : Nat → Nat → Except Exception Nat) (name : String)
    (fields : RInstFields) (rd rs rt : Reg) : MipsInst :=
  { eval := fun state =>
      let user_state := state.user_state
      match ev (user_state.regfile.read rs) (user_state.regfile.read rt) with
      | Except.ok new_rd_val =>
        InstResult.UserStateChange
          (UserDiff.reg_write_pc_p4 user_state rd new_rd_val)
      | Except.error Exception.Overflow => InstResult.Trap TrapKind.IntOverflow
    data := { name, fields := InstFields.R rd rs rt fields } }

/-! The 32-bit RISC-V program loader. -/

/-- Modelled from the spec: a RISC-V instruction
(architectures/riscv/instruction.rs is absent from the sources); only its
emitted machine word is relevant to the loader. -/
structure RiscVInst where
  machine_code : Nat

/-- Emission of a RISC-V instruction's machine word. -/
def RiscVInst.to_machine_code (i : RiscVInst) : Nat := i.machine_code

/-- Modelled from the spec: the section store handed over by the assembler
(assembler_impl.rs is absent from the sources) — the initial data and
read-only-data byte contents. -/
structure SectionStore where
  data : List Nat
  rodata : List Nat

/-- Base of the text segment in the 32-bit case (`TEXT_START_32`). -/
def TEXT_START_32 : Nat := 0x10000000

/-- Initial stack pointer in the 32-bit case (`STACK_START_32`). -/
def STACK_START_32 : Nat := 0x7FFFFFF0

/-- Base of the data segment in the 32-bit case (`DATA_START_32`). -/
def DATA_START_32 : Nat := 0x20000000

/-- The RISC-V stack-pointer register, x2 (`RiscVRegister::SP`). -/
def SP : Reg := (2 : Fin 32)

/-- Conversion of a byte address to a word address
(`ByteAddr32::to_word_address`). -/
def to_word_address (a : Nat) : Nat := a % WORD_MOD / 4

/-- The instruction-storing loop of `RiscVProgram::new`: each instruction's
machine word is stored at the next word-width stride. -/
def store_insts (m : Memory) (addr : Nat) : List RiscVInst → Memory
  | [] => m
  | i :: rest =>
    store_insts
      (m.set_word (to_word_address addr) (i.to_machine_code % WORD_MOD))
      (plus4 addr) rest

/-- A 32-bit RISC-V program (`RiscVProgram`). -/
structure RiscVProgram where
  insts : List RiscVInst
  state : ProgramState

/-- Program construction (`RiscVProgram::new` for `Width32b`): start from a
fresh state, set the stack pointer to `STACK_START_32`, set pc to
`TEXT_START_32`, store the instruction words from the text base onwards, then
store every data/rodata byte with `set_byte` at `DATA_START_32` — the
enumerated offset is discarded by the source, so each byte lands at the same
address. -/
def RiscVProgram.new (insts : List RiscVInst) (sections : SectionStore) :
    RiscVProgram :=
  let state := ProgramState.new
  let regfile := state.user_state.regfile.set SP STACK_START_32
  let mem_with_insts := store_insts state.user_state.memory TEXT_START_32 insts
  let all_data := sections.data ++ sections.rodata
  let mem_with_data :=
    all_data.foldl (fun m byte => m.set_byte DATA_START_32 byte) mem_with_insts
  { insts
    state :=
      { priv_state := state.priv_state
        user_state :=
          { pc := TEXT_START_32, regfile, memory := mem_with_data } } }

/-! The privileged-state generation of the model (priv_s.rs): `PrivState`,
`PrivDiff`, `TermCause`. -/

/-- A possible cause for the termination of a program (`TermCause`). -/
inductive TermCause where
  | Exit (code : Nat)
  | SegFault
  | BusError
deriving DecidableEq

/-- The page-table interface consumed by the privileged layer (the
`PageTable` trait): apply an update against physical memory, and revert a
previously applied update.  `PT` is the page-table state, `U` the update
record, `M` the physical memory. -/
structure PageTableImpl (PT U M : Type) where
  apply_update : PT → M → U → PT × M
  revert_update : PT → M → U → PT × M

/-- Program state visible only to privileged entities (`PrivState`): program
break, heap start, the owned page table, and the captured stdout/stderr byte
streams. -/
structure PrivState (PT : Type) where
  brk : Nat
  heap_start : Nat
  page_table : PT
  stdout : List Nat
  stderr : List Nat

/-- A change to the privileged state (`PrivDiff`): termination, a file write
carrying the written bytes, a page-table update, or a break-pointer update. -/
inductive PrivDiff (U : Type) where
  | Terminate (cause : TermCause)
  | FileWrite (fd : Nat) (data : List Nat)
  | PtUpdate (update : U)
  | BrkUpdate (old : Nat) (new : Nat)

/-- Applying a privileged diff (`PrivState::apply_diff`): a file write
appends its bytes to the captured stream of descriptor 1 (stdout) or 2
(stderr) — any other descriptor hits `unimplemented!`, modelled as `none`;
`Terminate` surfaces its cause as an `Except.error`; a page-table update is
applied through the page-table interface; a break update installs the new
break. -/
def PrivState.apply_diff {PT U M : Type} (impl : PageTableImpl PT U M)
    (p : PrivState PT) (mem : M) (diff : PrivDiff U) :
    Option (Except TermCause (PrivState PT × M)) :=
  match diff with
  | PrivDiff.FileWrite fd data =>
    match fd with
    | 1 => some (Except.ok ({ p with stdout := p.stdout ++ data }, mem))
    | 2 => some (Except.ok ({ p with stderr := p.stderr ++ data }, mem))
    | _ => none
  | PrivDiff.Terminate cause => some (Except.error cause)
  | PrivDiff.PtUpdate update =>
    let r := impl.apply_update p.page_table mem update
    some (Except.ok ({ p with page_table := r.1 }, r.2))
  | PrivDiff.BrkUpdate _ new => some (Except.ok ({ p with brk := new }, mem))

/-- Reverting a privileged diff (`PrivState::revert_diff`): a file write is a
silent no-op; a page-table update is reverted through the page-table
interface; a break update restores the old break; `Terminate` hits
`unimplemented!`, an abort modelled as `none`. -/
def PrivState.revert_diff {PT U M : Type} (impl : PageTableImpl PT U M)
    (p : PrivState PT) (mem : M) (diff : PrivDiff U) :
    Option (PrivState PT × M) :=
  match diff with
  | PrivDiff.FileWrite _ _ => some (p, mem)
  | PrivDiff.PtUpdate update =>
    let r := impl.revert_update p.page_table mem update
    some ({ p with page_table := r.1 }, r.2)
  | PrivDiff.BrkUpdate old _ => some ({ p with brk := old }, mem)
  | PrivDiff.Terminate _ => none

/-- The bytes of an ASCII diagnostic message. -/
def strBytes (s : String) : List Nat := s.data.map Char.toNat

/-- Modelled from the spec: `ProgramState::write_stderr` (the generation of
program.rs that priv_s.rs refers to is absent from the sources) — appends the
message's bytes to the captured stderr stream and echoes them to the real
stream. -/
def PrivState.write_stderr {PT : Type} (p : PrivState PT) (msg : String) :
    PrivState PT :=
  { p with stderr := p.stderr ++ strBytes msg }

/-- The diagnostic message accompanying a segmentation fault. -/
def segfaultMsg : String := "Segmentation fault: 11\n"

/-- The diagnostic message accompanying a bus error. -/
def busErrorMsg : String := "bus error\n"

/-- Termination handling (`TermCause::handle_exit`): `Exit n` truncates `n`
to a byte and masks it with `NORMAL_MASK = 0b0111_1111`; `SegFault` writes
its diagnostic to stderr and returns `11` with `ABNORMAL_MASK = 0b1000_0000`
set; `BusError` writes its diagnostic and returns `10` with the mask set. -/
def TermCause.handle_exit {PT : Type} (cause : TermCause)
    (program_state : PrivState PT) : Nat × PrivState PT :=
  match cause with
  | TermCause.Exit n => (Nat.land (n % 256) 0x7F, program_state)
  | TermCause.SegFault =>
    (Nat.lor 11 0x80, program_state.write_stderr segfaultMsg)
  | TermCause.BusError =>
    (Nat.lor 10 0x80, program_state.write_stderr busErrorMsg)

/-! Theorems. -/

/-- Writing a register and then writing back its previously read value
restores the register file exactly. -/
theorem RegFile.set_set_read (rf : RegFile) (r : Reg) (v : Nat) :
    (rf.set r v).set r (rf.read r) = rf := by
  unfold RegFile.set RegFile.read
  by_cases h : r = (0 : Reg)
  · simp [h]
  · funext x
    simp [h, Function.update_idem, Function.update_eq_self]

/-- Writing a memory word and then writing back the previously read word
restores the memory exactly. -/
theorem Memory.set_set_get (m : Memory) (a : Nat) (v : Nat) :
    (m.set_word a v).set_word a (m.get_word a) = m := by
  unfold Memory.set_word Memory.get_word
  rw [Function.update_idem, Function.update_eq_self]

/-- Reverting after applying a state-consistent diff restores the user state
componentwise. -/
theorem UserProgState.revert_apply (s : UserProgState) (d : UserDiff)
    (h : DiffFromState d s) : (s.apply_diff d).revert_diff d = s := by
  obtain ⟨hpc, hreg, hmem⟩ := h
  unfold UserProgState.apply_diff UserProgState.revert_diff
  cases s with
  | mk pc regfile memory =>
    simp only [UserProgState.mk.injEq]
    refine ⟨hpc, ?_, ?_⟩
    · cases hr : d.reg with
      | none => rfl
      | some rd =>
        have := hreg rd hr
        simp only [this]
        exact RegFile.set_set_read regfile rd.reg rd.val.new_value
    · cases hm : d.mem with
      | none => rfl
      | some md =>
        have := hmem md hm
        simp only [this]
        exact Memory.set_set_get memory md.addr md.val.new_value

/-- C1: for every user state `s` and every diff `d` whose recorded old values
were read from `s` — which is what each `UserDiff` constructor used by
instruction evaluation produces, as the remaining conjuncts state — applying
`d` and then reverting it reproduces `s` exactly: pc, the touched register
(if any) and the touched memory word (if any) are restored bit for bit. -/
theorem apply_then_revert_roundtrip :
    (∀ (s : UserProgState) (d : UserDiff), DiffFromState d s →
      (s.apply_diff d).revert_diff d = s) ∧
    (∀ s, DiffFromState (UserDiff.noop s) s) ∧
    (∀ s new_pc, DiffFromState (UserDiff.pc_update_op s new_pc) s) ∧
    (∀ s new_pc r v, DiffFromState (UserDiff.reg_write_op s new_pc r v) s) ∧
    (∀ s r v, DiffFromState (UserDiff.reg_write_pc_p4 s r v) s) ∧
    (∀ s a v, DiffFromState (UserDiff.mem_write_op s a v) s) := by
  refine ⟨UserProgState.revert_apply, ?_, ?_, ?_, ?_, ?_⟩ <;>
    intros <;>
    refine ⟨rfl, ?_, ?_⟩ <;>
    simp [UserDiff.noop, UserDiff.pc_update_op, UserDiff.reg_write_op,
      UserDiff.reg_write_pc_p4, UserDiff.mem_write_op, UserDiff.new_pc_p4,
      UserDiff.mk_new]

/-- C1 witness: a concrete register-writing diff built from a concrete state
round-trips to that state. -/
theorem apply_then_revert_roundtrip_witness :
    DiffFromState (UserDiff.reg_write_pc_p4 UserProgState.new (5 : Fin 32) 77)
      UserProgState.new ∧
    (UserProgState.new.apply_diff
        (UserDiff.reg_write_pc_p4 UserProgState.new (5 : Fin 32) 77)).revert_diff
        (UserDiff.reg_write_pc_p4 UserProgState.new (5 : Fin 32) 77) =
      UserProgState.new :=
  ⟨apply_then_revert_roundtrip.2.2.2.2.1 UserProgState.new (5 : Fin 32) 77,
    apply_then_revert_roundtrip.1 UserProgState.new
      (UserDiff.reg_write_pc_p4 UserProgState.new (5 : Fin 32) 77)
      (apply_then_revert_roundtrip.2.2.2.2.1 UserProgState.new (5 : Fin 32) 77)⟩

/-- C2: with the argument registers holding fd = 1, buf = `X`, len = `N`, the
syscall number decoding to `Write`, and memory holding the bytes `bs`
(`N` of them) from byte address `X` on, syscall dispatch produces the
file-write privileged diff `FileWrite 1 X N`, and applying the resulting trap
appends exactly `bs` to the captured stdout stream, writes `N` into the
convention's first return register, and advances pc by one instruction width
(4 bytes), leaving memory untouched. -/
theorem write_syscall_scenario (C : SyscallConvention) (s : ProgramState)
    (r0 r1 r2 : Reg) (rest : List Reg) (ret_reg : Reg) (ret_rest : List Reg)
    (X N : Nat) (bs : List Nat)
    (hargs : C.syscall_arg_regs = r0 :: r1 :: r2 :: rest)
    (hret : C.syscall_return_regs = ret_reg :: ret_rest)
    (hfd : s.user_state.regfile.read r0 = 1)
    (hbuf : s.user_state.regfile.read r1 = X)
    (hlen : s.user_state.regfile.read r2 = N)
    (hnr : C.number_to_syscall
      (toSigned (s.user_state.regfile.read C.syscall_number_reg)) =
      some Syscall.Write)
    (hmem : (List.range N).map
      (fun i => s.user_state.memory.get_byte ((X + i) % WORD_MOD)) = bs) :
    s.dispatch_syscall C = some (PrivStateChange.FileWrite 1 X N) ∧
    s.apply_diff C (InstResult.Trap TrapKind.Ecall) =
      some { priv_state := { stdout := s.priv_state.stdout ++ bs }
             user_state :=
               { pc := plus4 s.user_state.pc
                 regfile := s.user_state.regfile.set ret_reg N
                 memory := s.user_state.memory } } := by
  have hdisp : s.dispatch_syscall C = some (PrivStateChange.FileWrite 1 X N) := by
    unfold ProgramState.dispatch_syscall
    rw [hargs]
    simp only [hfd, hbuf, hlen, hnr]
  refine ⟨hdisp, ?_⟩
  show (s.handle_trap C TrapKind.Ecall).bind _ = _
  have htrap : s.handle_trap C TrapKind.Ecall =
      some (PrivStateChange.FileWrite 1 X N) := hdisp
  rw [htrap, Option.some_bind]
  unfold PrivProgState.apply_diff
  rw [hret]
  simp only [hmem, Option.map_some]
  unfold UserProgState.apply_diff UserDiff.reg_write_pc_p4 UserDiff.reg_write_op
    UserDiff.mk_new
  rfl

/-- A concrete syscall convention for exercising the write-syscall scenario:
number register x17, argument registers x10–x12, return register x10, and
syscall number 1 decoding to `Write`. -/
def writeConv : SyscallConvention :=
  { number_to_syscall := fun n => if n = 1 then some Syscall.Write else none
    syscall_number_reg := (17 : Fin 32)
    syscall_arg_regs := [(10 : Fin 32), (11 : Fin 32), (12 : Fin 32)]
    syscall_return_regs := [(10 : Fin 32)] }

/-- A concrete program state for exercising the write-syscall scenario:
registers set up for `write(1, 100, 2)` with syscall number 1, and the bytes
65, 66 in memory at byte address 100. -/
def writeState : ProgramState :=
  { priv_state := { stdout := [] }
    user_state :=
      { pc := 0
        regfile :=
          ((((RegFile.new.set (17 : Fin 32) 1).set (10 : Fin 32) 1).set
            (11 : Fin 32) 100).set (12 : Fin 32) 2)
        memory := (Memory.new.set_byte 100 65).set_byte 101 66 } }

/-- C2 witness: the write-syscall scenario at the concrete convention and
state, with fd = 1, buf = 100, len = 2, bytes 65 66. -/
theorem write_syscall_scenario_witness :
    writeState.user_state.regfile.read (10 : Fin 32) = 1 ∧
    writeState.user_state.regfile.read (11 : Fin 32) = 100 ∧
    writeState.user_state.regfile.read (12 : Fin 32) = 2 ∧
    writeConv.number_to_syscall
      (toSigned (writeState.user_state.regfile.read
        writeConv.syscall_number_reg)) = some Syscall.Write ∧
    (List.range 2).map
      (fun i => writeState.user_state.memory.get_byte ((100 + i) % WORD_MOD)) =
      [65, 66] ∧
    writeState.dispatch_syscall writeConv =
      some (PrivStateChange.FileWrite 1 100 2) ∧
    writeState.apply_diff writeConv (InstResult.Trap TrapKind.Ecall) =
      some { priv_state := { stdout := [] ++ [65, 66] }
             user_state :=
               { pc := plus4 writeState.user_state.pc
                 regfile := writeState.user_state.regfile.set (10 : Fin 32) 2
                 memory := writeState.user_state.memory } } :=
  ⟨by decide, by decide, by decide, by decide, by decide,
    (write_syscall_scenario writeConv writeState (10 : Fin 32) (11 : Fin 32)
      (12 : Fin 32) [] (10 : Fin 32) [] 100 2 [65, 66] rfl rfl (by decide)
      (by decide) (by decide) (by decide) (by decide)).1,
    (write_syscall_scenario writeConv writeState (10 : Fin 32) (11 : Fin 32)
      (12 : Fin 32) [] (10 : Fin 32) [] 100 2 [65, 66] rfl rfl (by decide)
      (by decide) (by decide) (by decide) (by decide)).2⟩

/-- C3: termination handling maps `Exit n` to `n` masked to its low 7 bits,
`SegFault` to status `11 ||| 0x80 = 139` while appending
"Segmentation fault: 11\n" to the captured stderr stream, and `BusError` to
status `10 ||| 0x80 = 138` while appending "bus error\n" to stderr. -/
theorem exit_mapping (PT : Type) (n : Nat) (p : PrivState PT) :
    TermCause.handle_exit (TermCause.Exit n) p = (n % 128, p) ∧
    TermCause.handle_exit TermCause.SegFault p =
      (139, { p with stderr := p.stderr ++ strBytes segfaultMsg }) ∧
    TermCause.handle_exit TermCause.BusError p =
      (138, { p with stderr := p.stderr ++ strBytes busErrorMsg }) := by
  have h1 : Nat.land (n % 256) 0x7F = n % 128 := by
    have h := Nat.and_pow_two_sub_one_eq_mod (n % 256) 7
    norm_num at h
    exact h
  have h2 : Nat.lor 11 0x80 = 139 := by decide
  have h3 : Nat.lor 10 0x80 = 138 := by decide
  refine ⟨?_, ?_, ?_⟩ <;>
    simp [TermCause.handle_exit, PrivState.write_stderr, h1, h2, h3]

/-- A syscall convention none of whose numbers decode to a syscall. -/
def plainConv : SyscallConvention :=
  { number_to_syscall := fun _ => none
    syscall_number_reg := (17 : Fin 32)
    syscall_arg_regs := [(10 : Fin 32), (11 : Fin 32), (12 : Fin 32)]
    syscall_return_regs := [(10 : Fin 32)] }

/-- C4 counterexample: trap dispatch only handles `Ecall`; resolving the
overflow trap hits `unimplemented!` — an abort of the simulator process,
modelled as `none` — so dispatch of an architectural-exception trap is fatal
to the simulator, contrary to the claim. -/
theorem overflow_trap_dispatch_fatal :
    ProgramState.handle_trap plainConv ProgramState.new TrapKind.IntOverflow =
      none ∧
    ProgramState.apply_diff plainConv ProgramState.new
      (InstResult.Trap TrapKind.IntOverflow) = none :=
  ⟨rfl, rfl⟩

/-- C4 (amended): when the R-type `eval` raises signed overflow, evaluation
yields the `IntOverflow` trap rather than a `UserDiff`, so no
destination-register write is ever produced; dispatching that trap, however,
aborts the simulator (`unimplemented!`, modelled as `none`) instead of
resolving it non-fatally. -/
theorem overflow_yields_trap (C : SyscallConvention) (s : ProgramState)
    (ev : Nat → Nat → Except Exception Nat) (name : String)
    (fields : RInstFields) (rd rs rt : Reg)
    (h : ev (s.user_state.regfile.read rs) (s.user_state.regfile.read rt) =
      Except.error Exception.Overflow) :
    (RType.new ev name fields rd rs rt).eval s =
      InstResult.Trap TrapKind.IntOverflow ∧
    s.apply_diff C (InstResult.Trap TrapKind.IntOverflow) = none := by
  constructor
  · show (match ev (s.user_state.regfile.read rs)
        (s.user_state.regfile.read rt) with
      | Except.ok new_rd_val =>
        InstResult.UserStateChange
          (UserDiff.reg_write_pc_p4 s.user_state rd new_rd_val)
      | Except.error Exception.Overflow =>
        InstResult.Trap TrapKind.IntOverflow) =
      InstResult.Trap TrapKind.IntOverflow
    rw [h]
  · rfl

/-- Modelled from the spec: the per-opcode `eval` of the MIPS signed addition
(the exhaustive per-opcode semantic table is outside the spec's scope) — it
raises the `Overflow` exception when the signed 32-bit sum overflows. -/
def addEval (a b : Nat) : Except Exception Nat :=
  let sum := toSigned a + toSigned b
  if sum < -(2 ^ 31 : Int) ∨ (2 ^ 31 : Int) ≤ sum then
    Except.error Exception.Overflow
  else Except.ok (sum % (WORD_MOD : Int)).toNat

/-- The mnemonic of the MIPS addition. -/
def addName : String := "add"

/-- The fixed R-format fields of the MIPS addition. -/
def addFields : RInstFields :=
  { opcode := { value := 0, width := 6 }
    shamt := { value := 0, width := 5 }
    funct := { value := 0x20, width := 6 } }

/-- A program state whose registers x8 and x9 hold `0x7FFFFFFF` and `1`, an
addition of which overflows signed 32-bit arithmetic. -/
def overflowState : ProgramState :=
  { priv_state := PrivProgState.new
    user_state :=
      { pc := 0
        regfile := (RegFile.new.set (8 : Fin 32) 0x7FFFFFFF).set (9 : Fin 32) 1
        memory := Memory.new } }

/-- C4 witness: the concrete overflowing addition yields the overflow trap,
and dispatching it aborts. -/
theorem overflow_yields_trap_witness :
    addEval (overflowState.user_state.regfile.read (8 : Fin 32))
      (overflowState.user_state.regfile.read (9 : Fin 32)) =
      Except.error Exception.Overflow ∧
    (RType.new addEval addName addFields (10 : Fin 32) (8 : Fin 32)
      (9 : Fin 32)).eval overflowState = InstResult.Trap TrapKind.IntOverflow ∧
    overflowState.apply_diff plainConv (InstResult.Trap TrapKind.IntOverflow) =
      none :=
  ⟨by rfl,
    (overflow_yields_trap plainConv overflowState addEval addName addFields
      (10 : Fin 32) (8 : Fin 32) (9 : Fin 32) (by rfl)).1,
    (overflow_yields_trap plainConv overflowState addEval addName addFields
      (10 : Fin 32) (8 : Fin 32) (9 : Fin 32) (by rfl)).2⟩

/-- C5: a syscall trap whose number decodes to no known syscall, or to a
recognized but unimplemented one (`Read`, `Open`, `Close`), makes dispatch
perform a fatal host-level abort (`syscall_unknown` panics, modelled as
`none`) — not a silent no-op, a guest-visible trap, or a recoverable
result. -/
theorem unknown_syscall_aborts (C : SyscallConvention) (s : ProgramState)
    (r0 r1 r2 : Reg) (rest : List Reg)
    (hargs : C.syscall_arg_regs = r0 :: r1 :: r2 :: rest)
    (h : C.number_to_syscall
        (toSigned (s.user_state.regfile.read C.syscall_number_reg)) = none ∨
      C.number_to_syscall
        (toSigned (s.user_state.regfile.read C.syscall_number_reg)) =
        some Syscall.Read ∨
      C.number_to_syscall
        (toSigned (s.user_state.regfile.read C.syscall_number_reg)) =
        some Syscall.Open ∨
      C.number_to_syscall
        (toSigned (s.user_state.regfile.read C.syscall_number_reg)) =
        some Syscall.Close) :
    s.dispatch_syscall C = none := by
  unfold ProgramState.dispatch_syscall
  rw [hargs]
  rcases h with h | h | h | h <;> simp [h]

/-- C5 witness: under a convention decoding no syscall numbers, dispatch on a
fresh state aborts. -/
theorem unknown_syscall_aborts_witness :
    plainConv.number_to_syscall
      (toSigned (ProgramState.new.user_state.regfile.read
        plainConv.syscall_number_reg)) = none ∧
    ProgramState.new.dispatch_syscall plainConv = none :=
  ⟨rfl,
    unknown_syscall_aborts plainConv ProgramState.new (10 : Fin 32)
      (11 : Fin 32) (12 : Fin 32) [] rfl (Or.inl rfl)⟩

/-- C6: the emitted machine word is a pure function of the structural
encoding data alone — two instructions sharing encoding data emit the same
word whatever their evaluation procedures — emission is stable under repeated
calls, and instruction equality is defined as equality of emitted machine
words. -/
theorem encoding_determinism (e1 e2 : InstApplyFn) (d : InstData)
    (i j : MipsInst) :
    MipsInst.to_machine_code { eval := e1, data := d } =
      MipsInst.to_machine_code { eval := e2, data := d } ∧
    i.to_machine_code = i.to_machine_code ∧
    (MipsInst.inst_eq i j = true ↔ i.to_machine_code = j.to_machine_code) := by
  refine ⟨rfl, rfl, ?_⟩
  simp [MipsInst.inst_eq]

/-- C7: applying a trapping instruction's result sequences the privileged
effect strictly before the derived user-visible effect: the privileged diff
is resolved and applied against the pre-application user state, and the user
diff it derives — whose recorded old values are read from that same original
user state — is applied to the user state afterwards. -/
theorem priv_effect_before_user_effect (C : SyscallConvention)
    (s : ProgramState) (k : TrapKind) :
    (s.apply_diff C (InstResult.Trap k) =
      (s.handle_trap C k).bind fun priv_diff =>
        (PrivProgState.apply_diff C s.priv_state s.user_state priv_diff).map
          fun pr =>
            { priv_state := pr.1
              user_state := s.user_state.apply_diff pr.2 }) ∧
    (∀ priv_diff pr, s.handle_trap C k = some priv_diff →
      PrivProgState.apply_diff C s.priv_state s.user_state priv_diff =
        some pr →
      DiffFromState pr.2 s.user_state) := by
  refine ⟨rfl, ?_⟩
  intro priv_diff pr _ happ
  cases priv_diff with
  | NoChange =>
    simp only [PrivProgState.apply_diff, Option.some.injEq] at happ
    rw [← happ]
    exact apply_then_revert_roundtrip.2.1 s.user_state
  | FileWrite fd buf len =>
    simp only [PrivProgState.apply_diff] at happ
    cases hret : C.syscall_return_regs with
    | nil => rw [hret] at happ; exact absurd happ (by simp)
    | cons ret_reg ret_rest =>
      rw [hret] at happ
      simp only [Option.some.injEq] at happ
      rw [← happ]
      exact apply_then_revert_roundtrip.2.2.2.2.1 s.user_state ret_reg len
  | Exit => exact absurd happ (by simp [PrivProgState.apply_diff])

/-- C7 witness: the decomposition at the concrete write-syscall state, with
the derived user diff shown consistent with the original user state. -/
theorem priv_effect_before_user_effect_witness :
    writeState.handle_trap writeConv TrapKind.Ecall =
      some (PrivStateChange.FileWrite 1 100 2) ∧
    PrivProgState.apply_diff writeConv writeState.priv_state
      writeState.user_state (PrivStateChange.FileWrite 1 100 2) =
      some ({ stdout := [65, 66] },
        UserDiff.reg_write_pc_p4 writeState.user_state (10 : Fin 32) 2) ∧
    DiffFromState
      (UserDiff.reg_write_pc_p4 writeState.user_state (10 : Fin 32) 2)
      writeState.user_state :=
  ⟨by decide, by decide,
    (priv_effect_before_user_effect writeConv writeState TrapKind.Ecall).2
      (PrivStateChange.FileWrite 1 100 2)
      ({ stdout := [65, 66] },
        UserDiff.reg_write_pc_p4 writeState.user_state (10 : Fin 32) 2)
      (by decide) (by decide)⟩

/-- C8: evaluating `RiscVProgram::new` on two instructions (words `0x13`,
`0x33`) and the data bytes `[0xAA, 0xBB]`: the pc is the text base, the stack
pointer register holds `0x7FFFFFF0`, the i-th instruction word sits at
`0x1000_0000 + 4 * i` — but both data bytes were stored at `DATA_START_32`
itself, because the source discards the enumerated offset, so the byte at
`0x2000_0000` is the last byte `0xBB` and the byte at `0x2000_0001` is `0`,
not the sequential `0xAA`, `0xBB` layout the claim describes. -/
theorem riscv_new_layout :
    (RiscVProgram.new [{ machine_code := 0x13 }, { machine_code := 0x33 }]
      { data := [0xAA, 0xBB], rodata := [] }).state.user_state.pc =
      TEXT_START_32 ∧
    (RiscVProgram.new [{ machine_code := 0x13 }, { machine_code := 0x33 }]
      { data := [0xAA, 0xBB], rodata := [] }).state.user_state.regfile.read
      SP = STACK_START_32 ∧
    (RiscVProgram.new [{ machine_code := 0x13 }, { machine_code := 0x33 }]
      { data := [0xAA, 0xBB], rodata := [] }).state.user_state.memory.get_word
      (to_word_address TEXT_START_32) = 0x13 ∧
    (RiscVProgram.new [{ machine_code := 0x13 }, { machine_code := 0x33 }]
      { data := [0xAA, 0xBB], rodata := [] }).state.user_state.memory.get_word
      (to_word_address (TEXT_START_32 + 4)) = 0x33 ∧
    (RiscVProgram.new [{ machine_code := 0x13 }, { machine_code := 0x33 }]
      { data := [0xAA, 0xBB], rodata := [] }).state.user_state.memory.get_byte
      DATA_START_32 = 0xBB ∧
    (RiscVProgram.new [{ machine_code := 0x13 }, { machine_code := 0x33 }]
      { data := [0xAA, 0xBB], rodata := [] }).state.user_state.memory.get_byte
      (DATA_START_32 + 1) = 0 := by
  refine ⟨rfl, by decide, by decide, by decide, by decide, by decide⟩

/-- A trivial page-table implementation over unit state, for exercising the
privileged diffs at concrete inputs. -/
def unitPtImpl : PageTableImpl Unit Unit Unit :=
  { apply_update := fun p m _ => (p, m)
    revert_update := fun p m _ => (p, m) }

/-- A concrete privileged state with empty capture streams. -/
def basePrivState : PrivState Unit :=
  { brk := 0, heap_start := 0, page_table := (), stdout := [], stderr := [] }

/-- C9 counterexample: reverting a `Terminate` privileged diff hits
`unimplemented!` — an abort, modelled as `none` — so revert is not total over
all diff variants. -/
theorem revert_terminate_aborts :
    PrivState.revert_diff unitPtImpl basePrivState ()
      (PrivDiff.Terminate (TermCause.Exit 0)) = none :=
  rfl

/-- C9 (amended): reverting a user diff is a total operation, and reverting a
privileged diff never errors for the `FileWrite`, `PtUpdate` and `BrkUpdate`
variants; reverting a `Terminate` (or old-generation `Exit`) diff, however,
aborts the simulator (`unimplemented!`, modelled as `none`). -/
theorem revert_total_except_terminate (PT U M : Type)
    (impl : PageTableImpl PT U M) (p : PrivState PT) (mem : M)
    (d : PrivDiff U) (h : ∀ c, d ≠ PrivDiff.Terminate c) :
    (PrivState.revert_diff impl p mem d).isSome = true ∧
    (∀ c, PrivState.revert_diff impl p mem (PrivDiff.Terminate c) = none) ∧
    (∀ (s : UserProgState) (ud : UserDiff),
      (s.revert_diff ud).pc = ud.pc.old_pc) := by
  refine ⟨?_, fun _ => rfl, fun _ _ => rfl⟩
  cases d with
  | Terminate c => exact absurd rfl (h c)
  | FileWrite fd data => rfl
  | PtUpdate u => rfl
  | BrkUpdate old new => rfl

/-- C9 witness: a file-write revert at a concrete privileged state
succeeds. -/
theorem revert_total_except_terminate_witness :
    (∀ c, (PrivDiff.FileWrite (U := Unit) 1 [65]) ≠ PrivDiff.Terminate c) ∧
    (PrivState.revert_diff unitPtImpl basePrivState ()
      (PrivDiff.FileWrite 1 [65])).isSome = true :=
  ⟨fun _ h => PrivDiff.noConfusion h,
    (revert_total_except_terminate Unit Unit Unit unitPtImpl basePrivState ()
      (PrivDiff.FileWrite 1 [65]) (fun _ h => PrivDiff.noConfusion h)).1⟩

/-- C10: reverting a file-write privileged diff is a silent no-op — the
privileged state (captured stdout and stderr streams, break pointer, heap
start, page table) and physical memory are returned exactly as they were, and
the same holds of the old-generation `PrivProgState::revert_diff`. -/
theorem filewrite_revert_noop (PT U M : Type) (impl : PageTableImpl PT U M)
    (p : PrivState PT) (mem : M) (fd : Nat) (data : List Nat)
    (pp : PrivProgState) (us : UserProgState) (buf len : Nat) :
    PrivState.revert_diff impl p mem (PrivDiff.FileWrite fd data) =
      some (p, mem) ∧
    PrivProgState.revert_diff pp us (PrivStateChange.FileWrite fd buf len) =
      some pp :=
  ⟨rfl, rfl⟩

end Duna
